import Mathlib

/-
Verification of the HTTP client wrapper (request pipeline + SSE-style
stream consumer) in this repository.

Two source variants of the pipeline exist:
  * `src/utils/request.ts`  — has `enableCodeCheck`; on business success its
    `responseOnFulfilled` returns the full envelope `res`;
  * `src/src/request.ts`    — no `enableCodeCheck` (success is always
    `config?.successCode === res.code`); on business success it returns
    `res.data`.
Both share the same business-failure branch and the same
`responseOnRejected`.

The shallow embedding models JavaScript runtime values (`JsValue`),
the truthiness and string-coercion rules the code relies on, and the
observable side effects (handler calls, stream callbacks) as explicit
event lists.  `JSON.parse` and `fetch` are external platform primitives,
so they enter the model as parameters / explicit inputs; JSON numbers are
restricted to integers (no claim depends on float formatting).
-/

namespace HttpUtils

/-- Model of a JavaScript runtime value as far as the code observes it
(JSON-parsed payloads, envelope fields).  Numbers are modelled as integers. -/
inductive JsValue where
  | null
  | bool (b : Bool)
  | num (n : Int)
  | str (s : String)
  | arr (elems : List JsValue)
  | obj (fields : List (String × JsValue))

/-- JavaScript truthiness of a `JsValue` (`if (content)`):
`null`, `false`, `0` and `""` are falsy; objects and arrays are truthy. -/
def JsValue.truthy : JsValue → Bool
  | .null => false
  | .bool b => b
  | .num n => n != 0
  | .str s => s != ""
  | .arr _ => true
  | .obj _ => true

mutual

/-- JavaScript string coercion `String(v)` as used by `fullText += content`:
objects become "[object Object]", arrays join their elements with commas
(null elements become the empty string). -/
def jsToString : JsValue → String
  | .null => "null"
  | .bool true => "true"
  | .bool false => "false"
  | .num n => toString n
  | .str s => s
  | .arr xs => String.intercalate "," (jsArrStrings xs)
  | .obj _ => "[object Object]"

/-- Element-wise stringification of a JavaScript array for `Array.prototype.toString`. -/
def jsArrStrings : List JsValue → List String
  | [] => []
  | .null :: vs => "" :: jsArrStrings vs
  | v :: vs => jsToString v :: jsArrStrings vs

end

/-! ## JavaScript string builtins used by the code

`String.prototype.trim`, `startsWith`, `slice` and `split` are platform
builtins; they are modelled here over the string's character list so the
kernel can evaluate them on concrete inputs.  The whitespace class covers
the ASCII whitespace the streaming inputs can contain. -/

/-- Whitespace as stripped by `String.prototype.trim` (ASCII range). -/
def jsIsWs (c : Char) : Bool := c == ' ' || c == '\t' || c == '\r' || c == '\n'

/-- `s.trim()`: remove leading and trailing whitespace. -/
def jsTrim (s : String) : String :=
  ⟨((s.data.dropWhile jsIsWs).reverse.dropWhile jsIsWs).reverse⟩

/-- `s.startsWith(pre)`. -/
def jsStartsWith (s pre : String) : Bool := pre.data.isPrefixOf s.data

/-- `s.slice(n)` for a nonnegative `n` (the code only uses `line.slice(6)`
to strip the 6-character ASCII prefix "data: "). -/
def jsDrop (s : String) (n : Nat) : String := ⟨s.data.drop n⟩

/-- Accumulator-style worker for `s.split('\n')`. -/
def splitLinesAux (acc : List Char) : List Char → List String
  | [] => [⟨acc.reverse⟩]
  | c :: cs =>
    if c = '\n' then ⟨acc.reverse⟩ :: splitLinesAux [] cs
    else splitLinesAux (c :: acc) cs

/-- `s.split('\n')`: all pieces between newlines, empty pieces preserved,
`"".split('\n') = [""]`. -/
def jsSplitLines (s : String) : List String := splitLinesAux [] s.data

/-! ## Request pipeline (`HttpClient` interceptors) -/

/-- The wire envelope `ApiResponse { code, message, data }`.
`message` is a string; the code's `res.message || fallback` treats the
empty string as absent. -/
structure ApiResponse where
  code : Int
  message : String
  data : JsValue

/-- The business extension fields of `RequestConfig` that the interceptors
read.  Each field is optional (`none` = the key is absent on the JS object). -/
structure RequestConfig where
  showGlobalMessage : Option Bool := none
  successCode : Option Int := none
  enableCodeCheck : Option Bool := none

/-- `HttpClient.defaultConfig` of the `src/utils/request.ts` variant:
`{ showGlobalMessage: true, successCode: 10000, enableCodeCheck: true }`. -/
def defaultConfig : RequestConfig :=
  { showGlobalMessage := some true, successCode := some 10000, enableCodeCheck := some true }

/-- The merge `{ ...HttpClient.defaultConfig, ...config }` performed by
`requestOnFulfilled` in `src/utils/request.ts`: a key present on `config`
wins, otherwise the default applies. -/
def mergeConfig (c : RequestConfig) : RequestConfig :=
  { showGlobalMessage := some (c.showGlobalMessage.getD true)
    successCode := some (c.successCode.getD 10000)
    enableCodeCheck := some (c.enableCodeCheck.getD true) }

/-- The merge of the `src/src/request.ts` variant, whose `defaultConfig`
has no `enableCodeCheck` key. -/
def mergeConfigSrc (c : RequestConfig) : RequestConfig :=
  { showGlobalMessage := some (c.showGlobalMessage.getD true)
    successCode := some (c.successCode.getD 10000)
    enableCodeCheck := c.enableCodeCheck }

/-- Which optional handlers were supplied at construction
(`handlers.handleBackendError`, `handlers.handleGlobalMessage`).
An absent handler makes the corresponding optional-chained call a no-op. -/
structure HandlersPresence where
  hasBackendError : Bool
  hasGlobalMessage : Bool

/-- An observable handler invocation performed by an interceptor. -/
inductive PipeEv where
  | backendError (code : Int) (message : String)
  | globalMessage (message : String)

/-- The business-failure message
`res.message || `请求失败，业务码：${res.code}`` (JS `||`: the empty
string falls back to the template). -/
def backendErrorMessage (res : ApiResponse) : String :=
  if res.message = "" then "请求失败，业务码：" ++ toString res.code else res.message

/-- The handler calls made on the business-failure branch shared by both
variants: `handleBackendError(res.code, res.message)` when registered,
else `handlers?.handleGlobalMessage?.(errorMessage)` when
`config?.showGlobalMessage` is truthy. -/
def businessFailureEvents (h : HandlersPresence) (cfg : RequestConfig)
    (res : ApiResponse) : List PipeEv :=
  if h.hasBackendError then [.backendError res.code res.message]
  else if cfg.showGlobalMessage.getD false then
    (if h.hasGlobalMessage then [.globalMessage (backendErrorMessage res)] else [])
  else []

/-- The envelope object `res` as a JavaScript value (what the
`src/utils/request.ts` variant resolves with on success). -/
def envelopeValue (res : ApiResponse) : JsValue :=
  .obj [("code", .num res.code), ("message", .str res.message), ("data", res.data)]

/-- `responseOnFulfilled` of `src/utils/request.ts` (lines 62–84):
`isSuccess = config?.enableCodeCheck ? config?.successCode === res.code : true`;
on success return `res` (the full envelope); on failure fire the
business-failure handlers and `Promise.reject(res)`. -/
def utils_responseOnFulfilled (h : HandlersPresence) (cfg : RequestConfig)
    (res : ApiResponse) : Except ApiResponse JsValue × List PipeEv :=
  let isSuccess : Bool :=
    if cfg.enableCodeCheck.getD false then cfg.successCode = some res.code else true
  if isSuccess then (.ok (envelopeValue res), [])
  else (.error res, businessFailureEvents h cfg res)

/-- `responseOnFulfilled` of `src/src/request.ts` (lines 136–156):
`isSuccess = config?.successCode === res.code` (this variant has no
`enableCodeCheck` field); on success return `res.data`; failure branch as above. -/
def src_responseOnFulfilled (h : HandlersPresence) (cfg : RequestConfig)
    (res : ApiResponse) : Except ApiResponse JsValue × List PipeEv :=
  let isSuccess : Bool := cfg.successCode = some res.code
  if isSuccess then (.ok res.data, [])
  else (.error res, businessFailureEvents h cfg res)

/-- The part of an axios error's `error.response` that `responseOnRejected`
reads: the HTTP status and `error.response.config?.url` (`none` models an
absent url, which the template literal renders as "undefined"). -/
structure ErrorResponseInfo where
  status : Int
  url : Option String

/-- The shape of the axios error object as observed by `responseOnRejected`:
`axios.isCancel(error)`, the optional `error.response`, the truthiness of
`error.request`, and `error.config` (possibly absent). -/
structure AxiosError where
  isCancel : Bool
  response : Option ErrorResponseInfo
  hasRequest : Bool
  config : Option RequestConfig

/-- Rendering of a possibly-absent url inside a JS template literal:
`undefined` prints as "undefined". -/
def jsUndefToString : Option String → String
  | some s => s
  | none => "undefined"

/-- The `errorMessage` computed by `responseOnRejected` (identical in both
variants, `src/utils/request.ts` lines 86–120): cancellation first, then the
HTTP-status table, then request-without-response, else the unknown-error text. -/
def resolveErrorMessage (e : AxiosError) : String :=
  if e.isCancel then "请求已取消"
  else
    match e.response with
    | some r =>
      if r.status = 401 then "未授权，请重新登录"
      else if r.status = 403 then "拒绝访问"
      else if r.status = 404 then "请求地址不存在: " ++ jsUndefToString r.url
      else if r.status = 500 then "服务器内部错误"
      else "HTTP错误: " ++ toString r.status
    | none => if e.hasRequest then "网络错误，无法连接到服务器" else "未知错误"

/-- The rejection value `{ ...error, message: errorMessage }` of
`responseOnRejected`: the original error fields with the resolved message
attached. -/
structure RejectedError extends AxiosError where
  message : String

/-- `responseOnRejected` (both variants): compute the message, fire
`handlers?.handleGlobalMessage?.(errorMessage)` when
`config?.showGlobalMessage` is truthy, and reject with
`{ ...error, message: errorMessage }`. -/
def responseOnRejected (h : HandlersPresence) (e : AxiosError) :
    RejectedError × List PipeEv :=
  let msg := resolveErrorMessage e
  let evs :=
    if (e.config.bind fun c => c.showGlobalMessage).getD false then
      (if h.hasGlobalMessage then [.globalMessage msg] else [])
    else []
  ({ toAxiosError := e, message := msg }, evs)

/-! ## Stream consumer (`HttpClient.stream`, `src/utils/request.ts` lines 176–273)

`JSON.parse` enters the model as a parameter `jp : String → Option JsValue`
(`none` models a thrown `SyntaxError`); `extractContent` as an optional
projection `ec : Option (JsValue → String)` (its TS signature returns a
string).  The decoded text chunks delivered by `reader.read()` are the
model's input; the observable callback invocations are returned as events. -/

/-- The value bound by `const content = extractContent?.(parsed) || parsed`:
either the string produced by `extractContent` or (when `extractContent` is
absent or its result is the empty string, which is falsy) the parsed
JavaScript value itself. -/
inductive Content where
  | str (s : String)
  | val (v : JsValue)

/-- JavaScript truthiness of the `content` binding (`if (content)`). -/
def Content.truthy : Content → Bool
  | .str s => s != ""
  | .val v => v.truthy

/-- The string `fullText += content` appends: strings verbatim, other
values through JavaScript string coercion. -/
def Content.asAppended : Content → String
  | .str s => s
  | .val v => jsToString v

/-- An observable callback invocation of `stream`. -/
inductive StreamEv where
  | start
  | message (content : Content) (fullText : String)
  | complete (fullText : String)
  | error (errMsg : String)

/-- `const content = extractContent?.(parsed) || parsed` (JS `||`: the
empty string returned by `extractContent` falls back to `parsed`;
an absent `extractContent` yields `undefined`, which also falls back). -/
def computeContent (ec : Option (JsValue → String)) (parsed : JsValue) : Content :=
  match ec with
  | some f => if f parsed = "" then .val parsed else .str (f parsed)
  | none => .val parsed

/-- Outcome of processing one line of a decoded chunk: `done` is the early
return on the `[DONE]` sentinel; `cont` carries the updated accumulator. -/
inductive LineStep where
  | done (fullText : String) (events : List StreamEv)
  | cont (fullText : String) (events : List StreamEv)

/-- The per-line body of the `for (const line of lines)` loop
(`src/utils/request.ts` lines 232–263): skip whitespace-only lines; on a
`data: ` prefix strip it and trim, return on `[DONE]`, otherwise try JSON
(append the truthy content and call `onMessage`) with a plain-text fallback
that appends the trimmed payload unconditionally; lines without the prefix
are appended verbatim. -/
def processLine (jp : String → Option JsValue) (ec : Option (JsValue → String))
    (fullText line : String) : LineStep :=
  if jsTrim line = "" then .cont fullText []
  else if jsStartsWith line "data: " then
    if jsTrim (jsDrop line 6) = "[DONE]" then .done fullText [.complete fullText]
    else
      match jp (jsTrim (jsDrop line 6)) with
      | some parsed =>
        if (computeContent ec parsed).truthy then
          .cont (fullText ++ (computeContent ec parsed).asAppended)
            [.message (computeContent ec parsed)
              (fullText ++ (computeContent ec parsed).asAppended)]
        else .cont fullText []
      | none =>
        .cont (fullText ++ jsTrim (jsDrop line 6))
          [.message (.str (jsTrim (jsDrop line 6)))
            (fullText ++ jsTrim (jsDrop line 6))]
  else
    .cont (fullText ++ line) [.message (.str line) (fullText ++ line)]

/-- The `for` loop over the lines of one decoded chunk; a `done` from any
line aborts the remaining lines (the `return` inside the loop). -/
def processLines (jp : String → Option JsValue) (ec : Option (JsValue → String))
    (fullText : String) : List String → LineStep
  | [] => .cont fullText []
  | l :: ls =>
    match processLine jp ec fullText l with
    | .done ft evs => .done ft evs
    | .cont ft evs =>
      match processLines jp ec ft ls with
      | .done ft2 evs2 => .done ft2 (evs ++ evs2)
      | .cont ft2 evs2 => .cont ft2 (evs ++ evs2)

/-- One observation of `await reader.read()`: a decoded text chunk, or a
rejection (network failure or cancellation of the request's signal).
The end of the list models `done: true`. -/
inductive ReadItem where
  | chunk (text : String)
  | fail (errMsg : String)

/-- The `while (true)` read loop (`src/utils/request.ts` lines 221–267):
each chunk is split on "\n" and processed line by line; a `[DONE]` returns
immediately (remaining reads untouched); a rejected read throws into the
`catch` block (`onError` then rethrow); exhaustion calls `onComplete`. -/
def runReads (jp : String → Option JsValue) (ec : Option (JsValue → String))
    (fullText : String) : List ReadItem → Except String String × List StreamEv
  | [] => (.ok fullText, [.complete fullText])
  | .fail e :: _ => (.error e, [.error e])
  | .chunk c :: rest =>
    match processLines jp ec fullText (jsSplitLines c) with
    | .done ft evs => (.ok ft, evs)
    | .cont ft evs =>
      ((runReads jp ec ft rest).fst, evs ++ (runReads jp ec ft rest).snd)

/-- The observable outcome of `fetch`: `ok`/`status`, and the response body
as the list of read observations (`none` models a body that is not
stream-readable, i.e. `response.body?.getReader()` yields no reader). -/
structure FetchResponse where
  ok : Bool
  status : Int
  body : Option (List ReadItem)

/-- `HttpClient.stream` as a whole: `onStart` fires first (inside the
`try`); a rejected `fetch` (network failure or aborted signal) throws;
a non-OK status throws `HTTP error! status: {status}`; an unreadable body
throws `Response body is not readable`; otherwise the read loop runs with
an empty accumulator.  The `catch` block turns any thrown error into a
single `onError` call followed by a rejection. -/
def stream (jp : String → Option JsValue) (ec : Option (JsValue → String))
    (fetchResult : Except String FetchResponse) :
    Except String String × List StreamEv :=
  match fetchResult with
  | .error e => (.error e, [.start, .error e])
  | .ok resp =>
    if !resp.ok then
      (.error ("HTTP error! status: " ++ toString resp.status),
        [.start, .error ("HTTP error! status: " ++ toString resp.status)])
    else
      match resp.body with
      | none =>
        (.error "Response body is not readable",
          [.start, .error "Response body is not readable"])
      | some reads =>
        ((runReads jp ec "" reads).fst, .start :: (runReads jp ec "" reads).snd)

/-- Which `AbortSignal` a party refers to: the internally created
`AbortController`'s signal or a caller-supplied external one. -/
inductive SignalSource where
  | internal
  | external
deriving DecidableEq

/-- `const requestSignal = signal || controller.signal`
(`src/utils/request.ts` line 192): the signal actually passed to `fetch`. -/
def requestSignal (hasExternalSignal : Bool) : SignalSource :=
  if hasExternalSignal then .external else .internal

/-- The target of the returned handle `abort: () => controller.abort()`
(lines 242 and 267): always the internally owned controller, regardless of
which signal the request was issued with. -/
def abortTarget : SignalSource := .internal

/-! ## Helpers for stating the theorems -/

/-- The errors reported through `onError`, in order. -/
def errorEvents (evs : List StreamEv) : List String :=
  evs.filterMap fun ev =>
    match ev with
    | .error e => some e
    | _ => none

/-- The `onComplete` invocations, in order (their `fullText` arguments). -/
def completeEvents (evs : List StreamEv) : List String :=
  evs.filterMap fun ev =>
    match ev with
    | .complete ft => some ft
    | _ => none

/-- Model of `JSON.parse` restricted to the concrete payloads exercised by
the concrete stream inputs below: "\x7b\x7d" parses to the empty object,
"\x7b"v":1\x7d" to an object with a numeric field `v`, and "0" to the
(falsy) number zero; every other payload used ("", "x", "q", "hey") is not
valid JSON, so `JSON.parse` throws. -/
def jsonParseModel : String → Option JsValue := fun s =>
  if s = "\x7b\x7d" then some (.obj [])
  else if s = "\x7b\"v\":1\x7d" then some (.obj [("v", .num 1)])
  else if s = "0" then some (.num 0)
  else none

/-! ## Theorems -/

/-- `onError` reports distribute over concatenated event logs. -/
lemma errorEvents_append (a b : List StreamEv) :
    errorEvents (a ++ b) = errorEvents a ++ errorEvents b := by
  simp [errorEvents]

/-- `onComplete` reports distribute over concatenated event logs. -/
lemma completeEvents_append (a b : List StreamEv) :
    completeEvents (a ++ b) = completeEvents a ++ completeEvents b := by
  simp [completeEvents]

/-- One line never reports an error, and reports completion exactly on the
`[DONE]` early return (with the resolved accumulator). -/
lemma processLine_events (jp : String → Option JsValue) (ec : Option (JsValue → String))
    (ft l : String) :
    (∀ ft2 evs, processLine jp ec ft l = .done ft2 evs →
        errorEvents evs = [] ∧ completeEvents evs = [ft2])
  ∧ (∀ ft2 evs, processLine jp ec ft l = .cont ft2 evs →
        errorEvents evs = [] ∧ completeEvents evs = []) := by
  constructor <;> intro ft2 evs h <;> unfold processLine at h <;>
    (repeat' (split at h)) <;> cases h <;> simp [errorEvents, completeEvents]

/-- The line loop of one chunk never reports an error; it reports completion
exactly when it hits the `[DONE]` early return. -/
lemma processLines_events (jp : String → Option JsValue) (ec : Option (JsValue → String)) :
    ∀ (ls : List String) (ft : String),
    (∀ ft2 evs, processLines jp ec ft ls = .done ft2 evs →
        errorEvents evs = [] ∧ completeEvents evs = [ft2])
  ∧ (∀ ft2 evs, processLines jp ec ft ls = .cont ft2 evs →
        errorEvents evs = [] ∧ completeEvents evs = []) := by
  intro ls
  induction ls with
  | nil =>
    intro ft
    constructor <;> intro ft2 evs h <;> unfold processLines at h
    · cases h
    · cases h; simp [errorEvents, completeEvents]
  | cons l ls ih =>
    intro ft
    constructor <;> intro ft2 evs h <;> unfold processLines at h
    · split at h
      · cases h
        exact (processLine_events jp ec ft l).1 _ _ (by assumption)
      · rename_i ft1 evs1 heq1
        split at h
        · rename_i ft2' evs2 heq2
          cases h
          have h1 := (processLine_events jp ec ft l).2 _ _ heq1
          have h2 := ((ih ft1).1) _ _ heq2
          rw [errorEvents_append, completeEvents_append, h1.1, h1.2, h2.1, h2.2]
          exact ⟨rfl, rfl⟩
        · cases h
    · split at h
      · cases h
      · rename_i ft1 evs1 heq1
        split at h
        · cases h
        · rename_i ft2' evs2 heq2
          cases h
          have h1 := (processLine_events jp ec ft l).2 _ _ heq1
          have h2 := ((ih ft1).2) _ _ heq2
          rw [errorEvents_append, completeEvents_append, h1.1, h1.2, h2.1, h2.2]
          exact ⟨rfl, rfl⟩

/-- Through the whole read loop: a rejection is reported by exactly one
`onError` and no `onComplete`; a resolution is reported by no `onError` and
exactly one `onComplete` carrying the resolved text. -/
lemma runReads_events (jp : String → Option JsValue) (ec : Option (JsValue → String)) :
    ∀ (reads : List ReadItem) (ft : String),
    (∀ e, (runReads jp ec ft reads).fst = .error e →
        errorEvents (runReads jp ec ft reads).snd = [e]
        ∧ completeEvents (runReads jp ec ft reads).snd = [])
  ∧ (∀ ft2, (runReads jp ec ft reads).fst = .ok ft2 →
        errorEvents (runReads jp ec ft reads).snd = []
        ∧ completeEvents (runReads jp ec ft reads).snd = [ft2]) := by
  intro reads
  induction reads with
  | nil =>
    intro ft
    constructor <;> intro x hx <;> unfold runReads at hx ⊢ <;> cases hx
    simp [errorEvents, completeEvents]
  | cons item rest ih =>
    intro ft
    cases item with
    | fail e =>
      constructor <;> intro x hx <;> unfold runReads at hx ⊢ <;> cases hx
      simp [errorEvents, completeEvents]
    | chunk c =>
      constructor <;> intro x hx <;> unfold runReads at hx ⊢ <;> split at hx <;>
          rename_i ft1 evs1 heq1 <;> dsimp only at hx ⊢
      · cases hx
      · have h1 := (processLines_events jp ec (jsSplitLines c) ft).2 _ _ heq1
        have h4 := (ih ft1).1 x hx
        rw [errorEvents_append, completeEvents_append, h1.1, h1.2, h4.1, h4.2]
        exact ⟨rfl, rfl⟩
      · cases hx
        exact (processLines_events jp ec (jsSplitLines c) ft).1 _ _ heq1
      · have h1 := (processLines_events jp ec (jsSplitLines c) ft).2 _ _ heq1
        have h4 := (ih ft1).2 x hx
        rw [errorEvents_append, completeEvents_append, h1.1, h1.2, h4.1, h4.2]
        exact ⟨rfl, rfl⟩

/-- The leading `onStart` report carries no error. -/
lemma errorEvents_start_cons (evs : List StreamEv) :
    errorEvents (.start :: evs) = errorEvents evs := by
  simp [errorEvents]

/-- The leading `onStart` report carries no completion. -/
lemma completeEvents_start_cons (evs : List StreamEv) :
    completeEvents (.start :: evs) = completeEvents evs := by
  simp [completeEvents]

/-- C4: on any error thrown during `stream()` (rejected fetch, non-OK
status, unreadable body, failed read), the call rejects with that error,
`onError` is invoked exactly once with it, and `onComplete` is never
invoked; conversely a resolved call reports no error and completes exactly
once with the resolved `fullText` — it never resolves after an error. -/
theorem stream_error_path (jp : String → Option JsValue) (ec : Option (JsValue → String))
    (inp : Except String FetchResponse) :
    (∀ e, (stream jp ec inp).fst = .error e →
        errorEvents (stream jp ec inp).snd = [e]
        ∧ completeEvents (stream jp ec inp).snd = [])
  ∧ (∀ ft, (stream jp ec inp).fst = .ok ft →
        errorEvents (stream jp ec inp).snd = []
        ∧ completeEvents (stream jp ec inp).snd = [ft]) := by
  cases inp with
  | error e =>
    constructor <;> intro x hx <;> unfold stream at hx ⊢ <;> cases hx
    simp [errorEvents, completeEvents]
  | ok resp =>
    obtain ⟨rok, status, body⟩ := resp
    cases rok with
    | false =>
      have hs : stream jp ec (.ok ⟨false, status, body⟩)
          = (.error ("HTTP error! status: " ++ toString status),
              [.start, .error ("HTTP error! status: " ++ toString status)]) := rfl
      constructor <;> intro x hx <;> rw [hs] at hx ⊢ <;> cases hx
      simp [errorEvents, completeEvents]
    | true =>
      cases body with
      | none =>
        have hs : stream jp ec (.ok ⟨true, status, none⟩)
            = (.error "Response body is not readable",
                [.start, .error "Response body is not readable"]) := rfl
        constructor <;> intro x hx <;> rw [hs] at hx ⊢ <;> cases hx
        simp [errorEvents, completeEvents]
      | some reads =>
        have hs : stream jp ec (.ok ⟨true, status, some reads⟩)
            = ((runReads jp ec "" reads).fst,
                .start :: (runReads jp ec "" reads).snd) := rfl
        constructor <;> intro x hx <;> rw [hs] at hx ⊢ <;> dsimp only at hx ⊢ <;>
          rw [errorEvents_start_cons, completeEvents_start_cons]
        · exact (runReads_events jp ec reads "").1 x hx
        · exact (runReads_events jp ec reads "").2 x hx

/-- Witness for C4 at a concrete non-OK HTTP response (status 500): the
promise rejects with the thrown HTTP error, `onError` fires exactly once
and `onComplete` never fires. -/
theorem stream_error_path_witness :
    (stream jsonParseModel none (.ok ⟨false, 500, none⟩)).fst
        = .error "HTTP error! status: 500"
  ∧ errorEvents (stream jsonParseModel none (.ok ⟨false, 500, none⟩)).snd
        = ["HTTP error! status: 500"]
  ∧ completeEvents (stream jsonParseModel none (.ok ⟨false, 500, none⟩)).snd = [] := by
  refine ⟨rfl, ?_, ?_⟩
  · exact ((stream_error_path jsonParseModel none (.ok ⟨false, 500, none⟩)).1 _ rfl).1
  · exact ((stream_error_path jsonParseModel none (.ok ⟨false, 500, none⟩)).1 _ rfl).2

/-- C2: a non-blank line with the literal prefix "data: " whose stripped,
trimmed payload is the sentinel "[DONE]" makes the call invoke
`onComplete(fullText)` and resolve immediately with the accumulated
`fullText` — the remaining lines of the chunk and all further reads
(`rest`) are never touched. -/
theorem stream_done_sentinel (jp : String → Option JsValue) (ec : Option (JsValue → String))
    (st line c : String) (moreLines : List String) (rest : List ReadItem)
    (hsplit : jsSplitLines c = line :: moreLines)
    (hblank : jsTrim line ≠ "")
    (hpre : jsStartsWith line "data: " = true)
    (hdone : jsTrim (jsDrop line 6) = "[DONE]") :
    runReads jp ec st (.chunk c :: rest) = (.ok st, [.complete st]) := by
  have hl : processLine jp ec st line = .done st [.complete st] := by
    simp [processLine, hblank, hpre, hdone]
  unfold runReads
  rw [hsplit]
  unfold processLines
  rw [hl]

/-- Witness for C2: after prior content "ab", the chunk "data: [DONE]\n"
resolves with fullText "ab" and a single `onComplete("ab")`, with a further
pending read left untouched. -/
theorem stream_done_sentinel_witness :
    runReads jsonParseModel none "ab" [.chunk "data: [DONE]\n", .chunk "xyz\n"]
      = (.ok "ab", [.complete "ab"]) :=
  stream_done_sentinel jsonParseModel none "ab" "data: [DONE]" "data: [DONE]\n" [""]
    [.chunk "xyz\n"] rfl (by decide) rfl rfl

/-- C3 (amended): for a "data: "-prefixed line whose payload parses as
JSON, the appended content is `extractContent(parsed)` when that string is
non-empty; when `extractContent` returns the empty string (falsy) or is
absent, the candidate content is the parsed value itself, appended in its
JavaScript string form only when it is truthy; when parsing fails the raw
trimmed payload is appended as plain text. -/
theorem stream_json_content_policy (jp : String → Option JsValue)
    (ec : Option (JsValue → String)) (st line data : String)
    (hblank : jsTrim line ≠ "")
    (hpre : jsStartsWith line "data: " = true)
    (hdata : jsTrim (jsDrop line 6) = data)
    (hdone : data ≠ "[DONE]") :
    (∀ v f s, jp data = some v → ec = some f → f v = s → s ≠ "" →
        processLine jp ec st line = .cont (st ++ s) [.message (.str s) (st ++ s)])
  ∧ (∀ v f, jp data = some v → ec = some f → f v = "" →
        processLine jp ec st line =
          if v.truthy then
            .cont (st ++ jsToString v) [.message (.val v) (st ++ jsToString v)]
          else .cont st [])
  ∧ (∀ v, jp data = some v → ec = none →
        processLine jp ec st line =
          if v.truthy then
            .cont (st ++ jsToString v) [.message (.val v) (st ++ jsToString v)]
          else .cont st [])
  ∧ (jp data = none →
        processLine jp ec st line = .cont (st ++ data) [.message (.str data) (st ++ data)]) := by
  subst hdata
  refine ⟨?_, ?_, ?_, ?_⟩
  · intro v f s hv hec hs hsne
    subst hec hs
    simp [processLine, hblank, hpre, hdone, hv, computeContent, hsne,
      Content.truthy, Content.asAppended]
  · intro v f hv hec hz
    subst hec
    cases hvt : v.truthy <;>
      simp [processLine, hblank, hpre, hdone, hv, computeContent, hz,
        Content.truthy, Content.asAppended, hvt]
  · intro v hv hec
    subst hec
    cases hvt : v.truthy <;>
      simp [processLine, hblank, hpre, hdone, hv, computeContent,
        Content.truthy, Content.asAppended, hvt]
  · intro hn
    simp [processLine, hblank, hpre, hdone, hn]

/-- Witness for C3 (amended): the spec's own example — payload "\x7b"v":1\x7d"
with `extractContent` producing "1" appends exactly "1" and reports
`onMessage("1", "1")`. -/
theorem stream_json_content_policy_witness :
    processLine jsonParseModel (some fun _ => "1") "" "data: \x7b\"v\":1\x7d"
      = .cont "1" [.message (.str "1") "1"] :=
  (stream_json_content_policy jsonParseModel (some fun _ => "1") "" "data: \x7b\"v\":1\x7d"
      "\x7b\"v\":1\x7d" (by decide) rfl rfl (by decide)).1
    (.obj [("v", .num 1)]) (fun _ => "1") "1" rfl rfl rfl (by decide)

/-- Counterexample to C3 as stated: with `extractContent` provided and
returning the empty string on the parsed object "\x7b\x7d", the text appended is
not `extractContent(parsedValue) = ""` — the JS `||` falls back to the
parsed object, and its coercion "[object Object]" is appended and reported. -/
theorem stream_extract_empty_fallback_cex :
    runReads jsonParseModel (some fun _ => "") "" [.chunk "data: \x7b\x7d\n"]
      = (.ok "[object Object]",
          [.message (.val (.obj [])) "[object Object]", .complete "[object Object]"])
  ∧ ("[object Object]" : String) ≠ "" :=
  ⟨rfl, by decide⟩

/-- C5 (amended): the abort handle returned by `stream()` always aborts the
internally owned controller, which is the signal actually given to `fetch`
exactly when the caller supplies no external signal; when the request's
signal rejects a pending read the loop terminates at once (later reads are
never observed), `onError` fires once with the cancellation error and the
call rejects — never silently; likewise when the cancellation rejects the
`fetch` itself. -/
theorem stream_abort_wiring :
    requestSignal false = abortTarget
  ∧ (∀ (jp : String → Option JsValue) (ec : Option (JsValue → String))
        (ft e : String) (rest : List ReadItem),
        runReads jp ec ft (.fail e :: rest) = (.error e, [.error e]))
  ∧ (∀ (jp : String → Option JsValue) (ec : Option (JsValue → String)) (e : String),
        stream jp ec (.error e) = (.error e, [.start, .error e])) :=
  ⟨rfl, fun _ _ _ _ _ => rfl, fun _ _ _ => rfl⟩

/-- Counterexample to C5 as stated: when the caller supplies an external
signal, the request is issued with that external signal while the returned
`abort()` still targets the internal controller — aborting it does not
cancel the underlying request. -/
theorem stream_abort_external_cex :
    requestSignal true = SignalSource.external
  ∧ abortTarget = SignalSource.internal
  ∧ SignalSource.external ≠ SignalSource.internal :=
  ⟨rfl, rfl, by decide⟩

/-- C9 (amended): a whitespace-only line is skipped with no append and no
callback; in the JSON-success branch the computed content is appended to
`fullText` and `onMessage` is invoked only if that content is truthy
(non-empty) — when it is falsy the accumulator is unchanged and no callback
fires; but the JSON-parse-failure branch appends the trimmed payload and
fires `onMessage` unconditionally (so an empty payload can be reported),
and a non-prefixed line is appended verbatim and is necessarily non-empty. -/
theorem stream_blank_and_nonempty (jp : String → Option JsValue)
    (ec : Option (JsValue → String)) (st line : String) :
    (jsTrim line = "" → processLine jp ec st line = .cont st [])
  ∧ (∀ v, jsTrim line ≠ "" → jsStartsWith line "data: " = true →
        jsTrim (jsDrop line 6) ≠ "[DONE]" → jp (jsTrim (jsDrop line 6)) = some v →
        processLine jp ec st line =
          if (computeContent ec v).truthy then
            .cont (st ++ (computeContent ec v).asAppended)
              [.message (computeContent ec v) (st ++ (computeContent ec v).asAppended)]
          else .cont st [])
  ∧ (∀ data, jsTrim line ≠ "" → jsStartsWith line "data: " = true →
        jsTrim (jsDrop line 6) = data → data ≠ "[DONE]" → jp data = none →
        processLine jp ec st line = .cont (st ++ data) [.message (.str data) (st ++ data)])
  ∧ (jsTrim line ≠ "" → jsStartsWith line "data: " = false →
        processLine jp ec st line = .cont (st ++ line) [.message (.str line) (st ++ line)]
        ∧ line ≠ "") := by
  refine ⟨?_, ?_, ?_, ?_⟩
  · intro hb
    simp [processLine, hb]
  · intro v hb hpre hdone hv
    cases hcc : (computeContent ec v).truthy <;>
      simp [processLine, hb, hpre, hdone, hv, hcc]
  · intro data hb hpre hdata hdone hn
    subst hdata
    simp [processLine, hb, hpre, hdone, hn]
  · intro hb hnp
    refine ⟨by simp [processLine, hb, hnp], ?_⟩
    intro hle
    rw [hle] at hb
    exact hb rfl

/-- Witness for C9 (amended): a whitespace-only line is skipped; a parsed
truthy payload (the object "\x7b"v":1\x7d" with no `extractContent`) is appended
in string form with one `onMessage`; a parsed falsy payload (the number 0)
leaves the accumulator untouched with no callback; and a plain non-prefixed
line is appended verbatim with one `onMessage`. -/
theorem stream_blank_and_nonempty_witness :
    processLine jsonParseModel none "ab" "   " = .cont "ab" []
  ∧ processLine jsonParseModel none "" "data: \x7b\"v\":1\x7d"
        = .cont "[object Object]"
            [.message (.val (.obj [("v", .num 1)])) "[object Object]"]
  ∧ processLine jsonParseModel none "z" "data: 0" = .cont "z" []
  ∧ processLine jsonParseModel none "" "hey" = .cont "hey" [.message (.str "hey") "hey"] :=
  ⟨(stream_blank_and_nonempty jsonParseModel none "ab" "   ").1 rfl,
    (stream_blank_and_nonempty jsonParseModel none "" "data: \x7b\"v\":1\x7d").2.1
      (.obj [("v", .num 1)]) (by decide) rfl (by decide) rfl,
    (stream_blank_and_nonempty jsonParseModel none "z" "data: 0").2.1
      (.num 0) (by decide) rfl (by decide) rfl,
    ((stream_blank_and_nonempty jsonParseModel none "" "hey").2.2.2 (by decide) rfl).1⟩

/-- Counterexample to C9 as stated: the line "data: " (payload trims to the
empty string, which fails JSON parsing) appends the empty string and still
invokes `onMessage` — with content that is empty, not non-empty. -/
theorem stream_empty_payload_message_cex :
    processLine jsonParseModel none "" "data: " = .cont "" [.message (.str "") ""]
  ∧ Content.truthy (.str "") = false
  ∧ Content.asAppended (.str "") = "" :=
  ⟨rfl, rfl, rfl⟩

/-- C10 (amended): chunks are split on "\n" independently, so a logical
line delivered across two reads is never reassembled: the first fragment
("data: " followed by a truncated payload) is processed as an SSE data line
over the truncated payload — prefix stripped, trimmed, JSON parse attempted,
appended as plain text on parse failure — and the second fragment is
appended directly as a plain-text line; the logical line is never treated
as one SSE data line. -/
theorem stream_split_line_not_reassembled (jp : String → Option JsValue)
    (ec : Option (JsValue → String)) (st x xt y : String)
    (hx : jsSplitLines ("data: " ++ x) = ["data: " ++ x])
    (hblank : jsTrim ("data: " ++ x) ≠ "")
    (hpre : jsStartsWith ("data: " ++ x) "data: " = true)
    (hxt : jsTrim (jsDrop ("data: " ++ x) 6) = xt)
    (hdone : xt ≠ "[DONE]")
    (hjp : jp xt = none)
    (hy : jsSplitLines (y ++ "\n") = [y, ""])
    (hyblank : jsTrim y ≠ "")
    (hypre : jsStartsWith y "data: " = false) :
    runReads jp ec st [.chunk ("data: " ++ x), .chunk (y ++ "\n")]
      = (.ok ((st ++ xt) ++ y),
          [.message (.str xt) (st ++ xt), .message (.str y) ((st ++ xt) ++ y),
            .complete ((st ++ xt) ++ y)]) := by
  subst hxt
  have h1 : processLine jp ec st ("data: " ++ x)
      = .cont (st ++ jsTrim (jsDrop ("data: " ++ x) 6))
          [.message (.str (jsTrim (jsDrop ("data: " ++ x) 6)))
            (st ++ jsTrim (jsDrop ("data: " ++ x) 6))] := by
    simp [processLine, hblank, hpre, hdone, hjp]
  have h2 : processLine jp ec (st ++ jsTrim (jsDrop ("data: " ++ x) 6)) y
      = .cont ((st ++ jsTrim (jsDrop ("data: " ++ x) 6)) ++ y)
          [.message (.str y) ((st ++ jsTrim (jsDrop ("data: " ++ x) 6)) ++ y)] := by
    simp [processLine, hyblank, hypre]
  have hL1 : processLines jp ec st (jsSplitLines ("data: " ++ x))
      = .cont (st ++ jsTrim (jsDrop ("data: " ++ x) 6))
          [.message (.str (jsTrim (jsDrop ("data: " ++ x) 6)))
            (st ++ jsTrim (jsDrop ("data: " ++ x) 6))] := by
    rw [hx]
    unfold processLines
    rw [h1]
    rfl
  have hL2 : processLines jp ec (st ++ jsTrim (jsDrop ("data: " ++ x) 6))
        (jsSplitLines (y ++ "\n"))
      = .cont ((st ++ jsTrim (jsDrop ("data: " ++ x) 6)) ++ y)
          [.message (.str y) ((st ++ jsTrim (jsDrop ("data: " ++ x) 6)) ++ y)] := by
    rw [hy]
    unfold processLines
    rw [h2]
    rfl
  have hR2 : runReads jp ec (st ++ jsTrim (jsDrop ("data: " ++ x) 6)) [.chunk (y ++ "\n")]
      = (.ok ((st ++ jsTrim (jsDrop ("data: " ++ x) 6)) ++ y),
          [.message (.str y) ((st ++ jsTrim (jsDrop ("data: " ++ x) 6)) ++ y),
            .complete ((st ++ jsTrim (jsDrop ("data: " ++ x) 6)) ++ y)]) := by
    unfold runReads
    rw [hL2]
    rfl
  unfold runReads
  rw [hL1]
  dsimp only
  rw [hR2]
  rfl

/-- Witness for C10 (amended): fragments "data: q" and "r\n" of the logical
line "data: qr" yield two separate plain-text appends "q" then "r". -/
theorem stream_split_line_not_reassembled_witness :
    runReads jsonParseModel none "a" [.chunk "data: q", .chunk "r\n"]
      = (.ok "aqr",
          [.message (.str "q") "aq", .message (.str "r") "aqr", .complete "aqr"]) :=
  stream_split_line_not_reassembled jsonParseModel none "a" "q" "q" "r"
    rfl (by decide) rfl rfl (by decide) rfl rfl (by decide) rfl

/-- Counterexample to C10 as stated: for the fragments "data: x" and "y\n",
the accumulated text is "xy" — the first fragment is appended with its
prefix stripped, not "appended directly", so the result differs from the
direct-append reading "data: xy". -/
theorem stream_chunk_split_direct_append_cex :
    runReads jsonParseModel none "" [.chunk "data: x", .chunk "y\n"]
      = (.ok "xy",
          [.message (.str "x") "x", .message (.str "y") "xy", .complete "xy"])
  ∧ ("xy" : String) ≠ "data: xy" :=
  ⟨rfl, by decide⟩

/-- The success envelope strictly contains its own `data` field, so the two
unwrap policies can never coincide. -/
lemma envelopeValue_ne_data (res : ApiResponse) : envelopeValue res ≠ res.data := by
  intro h
  have hs : sizeOf (envelopeValue res) = sizeOf res.data := by rw [h]
  simp [envelopeValue] at hs
  omega

/-- C1: with code-check enabled and an envelope code different from the
effective success code, both variants reject with the response envelope,
and exactly one error hook fires — `handleBackendError(code, message)` when
registered, otherwise `handleGlobalMessage` when `showGlobalMessage` is
true (and the handler exists); the two hooks never both fire. -/
theorem request_business_failure (h : HandlersPresence) (cfg : RequestConfig)
    (res : ApiResponse) (sc : Int)
    (hcheck : cfg.enableCodeCheck.getD false = true)
    (hsc : cfg.successCode = some sc)
    (hne : res.code ≠ sc) :
    (utils_responseOnFulfilled h cfg res).fst = .error res
  ∧ (src_responseOnFulfilled h cfg res).fst = .error res
  ∧ (h.hasBackendError = true →
      (utils_responseOnFulfilled h cfg res).snd = [.backendError res.code res.message])
  ∧ (h.hasBackendError = false → cfg.showGlobalMessage.getD false = true →
      h.hasGlobalMessage = true →
      (utils_responseOnFulfilled h cfg res).snd
        = [.globalMessage (backendErrorMessage res)])
  ∧ (utils_responseOnFulfilled h cfg res).snd.length ≤ 1
  ∧ (utils_responseOnFulfilled h cfg res).snd = (src_responseOnFulfilled h cfg res).snd := by
  have hne' : (cfg.successCode = some res.code) = False := by
    simp [hsc]
    exact fun he => hne he.symm
  refine ⟨?_, ?_, ?_, ?_, ?_, ?_⟩
  · simp [utils_responseOnFulfilled, hcheck, hne']
  · simp [src_responseOnFulfilled, hne']
  · intro hbe
    simp [utils_responseOnFulfilled, hcheck, hne', businessFailureEvents, hbe]
  · intro hbe hsg hgm
    simp [utils_responseOnFulfilled, hcheck, hne', businessFailureEvents, hbe, hsg, hgm]
  · simp only [utils_responseOnFulfilled, hcheck, hne', businessFailureEvents]
    cases h.hasBackendError <;> cases hg : cfg.showGlobalMessage.getD false <;>
      cases h.hasGlobalMessage <;> simp [hg]
  · simp [utils_responseOnFulfilled, src_responseOnFulfilled, hcheck, hne']

/-- Witness for C1 at the default effective config and a concrete failing
envelope (code 10001 ≠ 10000): both hooks registered, the call rejects with
the envelope and only `handleBackendError` fires. -/
theorem request_business_failure_witness :
    (utils_responseOnFulfilled ⟨true, true⟩ (mergeConfig {}) ⟨10001, "bad", .null⟩).fst
        = .error ⟨10001, "bad", .null⟩
  ∧ (utils_responseOnFulfilled ⟨true, true⟩ (mergeConfig {}) ⟨10001, "bad", .null⟩).snd
        = [.backendError 10001 "bad"] :=
  ⟨(request_business_failure ⟨true, true⟩ (mergeConfig {}) ⟨10001, "bad", .null⟩ 10000
      rfl rfl (by decide)).1,
    (request_business_failure ⟨true, true⟩ (mergeConfig {}) ⟨10001, "bad", .null⟩ 10000
      rfl rfl (by decide)).2.2.1 rfl⟩

/-- C6: a business-successful response fires no error hook and resolves —
the `src/utils` variant with code-check enabled and matching code (with the
full envelope), the same variant with `enableCodeCheck` false for any code,
and the `src/src` variant with matching code (with the `data` field). -/
theorem request_business_success (h : HandlersPresence) (cfg : RequestConfig)
    (res : ApiResponse) :
    (cfg.enableCodeCheck.getD false = true → cfg.successCode = some res.code →
        utils_responseOnFulfilled h cfg res = (.ok (envelopeValue res), []))
  ∧ (cfg.enableCodeCheck.getD false = false →
        utils_responseOnFulfilled h cfg res = (.ok (envelopeValue res), []))
  ∧ (cfg.successCode = some res.code →
        src_responseOnFulfilled h cfg res = (.ok res.data, [])) := by
  refine ⟨?_, ?_, ?_⟩
  · intro hcheck hsc
    simp [utils_responseOnFulfilled, hcheck, hsc]
  · intro hcheck
    simp [utils_responseOnFulfilled, hcheck]
  · intro hsc
    simp [src_responseOnFulfilled, hsc]

/-- Witness for C6: a matching envelope under the default effective config
resolves with no hook call, and a mismatching code with `enableCodeCheck`
false also resolves with no hook call. -/
theorem request_business_success_witness :
    utils_responseOnFulfilled ⟨true, true⟩ (mergeConfig {}) ⟨10000, "ok", .null⟩
        = (.ok (envelopeValue ⟨10000, "ok", .null⟩), [])
  ∧ utils_responseOnFulfilled ⟨true, true⟩ ⟨some true, some 10000, some false⟩
        ⟨123, "m", .null⟩
        = (.ok (envelopeValue ⟨123, "m", .null⟩), []) :=
  ⟨(request_business_success ⟨true, true⟩ (mergeConfig {}) ⟨10000, "ok", .null⟩).1 rfl rfl,
    (request_business_success ⟨true, true⟩ ⟨some true, some 10000, some false⟩
      ⟨123, "m", .null⟩).2.1 rfl⟩

/-- C7: the two variants are not equivalent on the business-success path:
for any business-successful envelope, `src/utils/request.ts` resolves with
the full envelope object while `src/src/request.ts` resolves with its
`data` field — and those two values always differ. -/
theorem variants_unwrap_divergence (h : HandlersPresence) (cfg : RequestConfig)
    (res : ApiResponse)
    (hcheck : cfg.enableCodeCheck.getD false = true)
    (hsc : cfg.successCode = some res.code) :
    (utils_responseOnFulfilled h cfg res).fst = .ok (envelopeValue res)
  ∧ (src_responseOnFulfilled h cfg res).fst = .ok res.data
  ∧ envelopeValue res ≠ res.data := by
  refine ⟨?_, ?_, envelopeValue_ne_data res⟩
  · simp [utils_responseOnFulfilled, hcheck, hsc]
  · simp [src_responseOnFulfilled, hsc]

/-- Witness for C7 at a concrete successful envelope: the `src/utils`
variant resolves with the envelope object, the `src/src` variant with its
(null) `data` field. -/
theorem variants_unwrap_divergence_witness :
    (utils_responseOnFulfilled ⟨true, true⟩ (mergeConfig {}) ⟨10000, "ok", .null⟩).fst
        = .ok (envelopeValue ⟨10000, "ok", .null⟩)
  ∧ (src_responseOnFulfilled ⟨true, true⟩ (mergeConfig {}) ⟨10000, "ok", .null⟩).fst
        = .ok JsValue.null
  ∧ envelopeValue ⟨10000, "ok", .null⟩ ≠ JsValue.null :=
  variants_unwrap_divergence ⟨true, true⟩ (mergeConfig {}) ⟨10000, "ok", .null⟩ rfl rfl

/-- C8 (amended): the transport-failure message follows the fixed
classification table with the code's Chinese-language texts — cancelled →
"请求已取消"; 401 → "未授权，请重新登录"; 403 → "拒绝访问"; 404 →
"请求地址不存在: {url}"; 500 → "服务器内部错误"; other statuses →
"HTTP错误: {status}"; request sent but no response → "网络错误，无法连接到服务器";
otherwise → "未知错误" — the message is attached as the `message` field of
the rejection object, and `handleGlobalMessage` receives it exactly when
`config?.showGlobalMessage` is truthy (and the handler exists). -/
theorem transport_error_messages (h : HandlersPresence) (e : AxiosError) :
    (e.isCancel = true → resolveErrorMessage e = "请求已取消")
  ∧ (∀ r, e.isCancel = false → e.response = some r →
      ((r.status = 401 → resolveErrorMessage e = "未授权，请重新登录")
        ∧ (r.status = 403 → resolveErrorMessage e = "拒绝访问")
        ∧ (r.status = 404 →
            resolveErrorMessage e = "请求地址不存在: " ++ jsUndefToString r.url)
        ∧ (r.status = 500 → resolveErrorMessage e = "服务器内部错误")
        ∧ (r.status ≠ 401 → r.status ≠ 403 → r.status ≠ 404 → r.status ≠ 500 →
            resolveErrorMessage e = "HTTP错误: " ++ toString r.status)))
  ∧ (e.isCancel = false → e.response = none → e.hasRequest = true →
      resolveErrorMessage e = "网络错误，无法连接到服务器")
  ∧ (e.isCancel = false → e.response = none → e.hasRequest = false →
      resolveErrorMessage e = "未知错误")
  ∧ (responseOnRejected h e).fst.message = resolveErrorMessage e
  ∧ ((e.config.bind fun c => c.showGlobalMessage).getD false = true →
      h.hasGlobalMessage = true →
      (responseOnRejected h e).snd = [.globalMessage (resolveErrorMessage e)])
  ∧ ((e.config.bind fun c => c.showGlobalMessage).getD false = false →
      (responseOnRejected h e).snd = []) := by
  refine ⟨?_, ?_, ?_, ?_, ?_, ?_, ?_⟩
  · intro hc
    simp [resolveErrorMessage, hc]
  · intro r hc hr
    refine ⟨?_, ?_, ?_, ?_, ?_⟩
    · intro hst
      simp [resolveErrorMessage, hc, hr, hst]
    · intro hst
      simp [resolveErrorMessage, hc, hr, hst]
    · intro hst
      simp [resolveErrorMessage, hc, hr, hst]
    · intro hst
      simp [resolveErrorMessage, hc, hr, hst]
    · intro h1 h2 h3 h4
      simp [resolveErrorMessage, hc, hr, h1, h2, h3, h4]
  · intro hc hr hq
    simp [resolveErrorMessage, hc, hr, hq]
  · intro hc hr hq
    simp [resolveErrorMessage, hc, hr, hq]
  · rfl
  · intro hsg hgm
    simp [responseOnRejected, hsg, hgm]
  · intro hsg
    simp [responseOnRejected, hsg]

/-- Witness for C8 (amended) at a concrete 404 with a url and
`showGlobalMessage` true: the resolved message includes the url and the
global-message hook receives exactly it. -/
theorem transport_error_messages_witness :
    resolveErrorMessage ⟨false, some ⟨404, some "/api/x"⟩, true, some (mergeConfig {})⟩
        = "请求地址不存在: /api/x"
  ∧ (responseOnRejected ⟨false, true⟩
        ⟨false, some ⟨404, some "/api/x"⟩, true, some (mergeConfig {})⟩).snd
        = [.globalMessage "请求地址不存在: /api/x"] := by
  have ht := transport_error_messages ⟨false, true⟩
    ⟨false, some ⟨404, some "/api/x"⟩, true, some (mergeConfig {})⟩
  exact ⟨(ht.2.1 ⟨404, some "/api/x"⟩ rfl rfl).2.2.1 rfl,
    ht.2.2.2.2.2.1 rfl rfl⟩

/-- Counterexample to C8 as stated: at HTTP status 401 the produced message
is the Chinese text "未授权，请重新登录", not the English
"unauthorized, please re-login" the claim prescribes. -/
theorem transport_message_language_cex :
    resolveErrorMessage ⟨false, some ⟨401, none⟩, true, none⟩ = "未授权，请重新登录"
  ∧ ("未授权，请重新登录" : String) ≠ "unauthorized, please re-login" :=
  ⟨rfl, by decide⟩

end HttpUtils
